import Mathlib

/-!
Verification of the Calorie-Counter request handlers.

This file gives a shallow embedding of the two Next.js route handlers
(`src/app/api/analyze/route.ts` and `src/app/api/upload/route.ts`) and proves
the behavioural properties stated in the repository specification.

Modelling conventions:
* JavaScript values flowing out of `JSON.parse` are modelled by the inductive
  type `Json`; numbers are modelled as integers (the handlers only compare
  them against `0`).
* `undefined` is modelled by `Option.none` on property lookups.
* Network, model, clock and randomness effects are passed in explicitly as
  environment records, and the handlers return, besides the HTTP response,
  the list of side effects (filesystem events, outbound calls) performed.
-/

set_option autoImplicit false

namespace CalorieCounter

/-- JSON values as produced by `JSON.parse` in the analyze route.  Numbers
are modelled as integers (the route only compares them with `0`).  Object
fields keep source order; `lookupField` returns the last binding for a key,
matching how `JSON.parse` resolves duplicate keys. -/
inductive Json where
  | null : Json
  | bool (b : Bool) : Json
  | num (n : Int) : Json
  | str (s : String) : Json
  | arr (elems : List Json) : Json
  | obj (fields : List (String × Json)) : Json

/-- Last-binding-wins lookup in a parsed JSON object (the value `JSON.parse`
gives to a duplicated key is the last one in source order). -/
def lookupField : List (String × Json) → String → Option Json
  | [], _ => none
  | (k, v) :: rest, key =>
    match lookupField rest key with
    | some w => some w
    | none => if k = key then some v else none

/-- JavaScript property access `j[key]`; `none` models `undefined`.
Values produced by `JSON.parse` other than objects have no string-keyed own
properties of interest to the handler. -/
def jget : Json → String → Option Json
  | .obj fields, key => lookupField fields key
  | _, _ => none

/-- The JavaScript `typeof` operator on parsed JSON values. -/
def jsTypeof : Json → String
  | .null => "object"
  | .bool _ => "boolean"
  | .num _ => "number"
  | .str _ => "string"
  | .arr _ => "object"
  | .obj _ => "object"

/-- `typeof` lifted to possibly-`undefined` values. -/
def jsTypeofOpt : Option Json → String
  | none => "undefined"
  | some v => jsTypeof v

/-- JavaScript truthiness of a parsed JSON value. -/
def truthy : Json → Bool
  | .null => false
  | .bool b => b
  | .num n => decide (n ≠ 0)
  | .str s => decide (s ≠ "")
  | .arr _ => true
  | .obj _ => true

/-- A `NextResponse.json` result: HTTP status plus JSON body. -/
structure Resp where
  status : Nat
  body : Json

/-- `NextResponse.json({ error: msg }, { status })`. -/
def jsonError (msg : String) (status : Nat) : Resp :=
  ⟨status, .obj [("error", .str msg)]⟩

/-- The test `item.estimatedGrams !== null && (typeof item.estimatedGrams
!== "number" || item.estimatedGrams < 0)` from the analyze route
(`none` models an absent property, i.e. `undefined`). -/
def gramsBad : Option Json → Bool
  | some .null => false
  | some (.num n) => decide (n < 0)
  | _ => true

/-- The per-item checks of the analyze route's validation loop
(route.ts lines 143-162), returning the error message of the first failing
check, or `none` when the item passes. -/
def itemError (item : Json) : Option String :=
  if !truthy item || jsTypeof item != "object" then
    some "Invalid response structure: each item must be an object"
  else if jsTypeofOpt (jget item "name") != "string" then
    some "Invalid response structure: each item must have a 'name' string property"
  else if gramsBad (jget item "estimatedGrams") then
    some "Invalid response structure: 'estimatedGrams' must be a number >= 0 or null"
  else
    none

/-- The `for (const item of parsedResponse.items)` loop: the first item error
aborts the whole request. -/
def firstItemError : List Json → Option String
  | [] => none
  | item :: rest =>
    match itemError item with
    | some msg => some msg
    | none => firstItemError rest

/-- Structure validation of the parsed model reply (route.ts lines 128-165):
top-level truthy-object check, `Array.isArray(parsedResponse.items)` check,
per-item loop, and on success the parsed value is echoed back with the
default status 200. -/
def validateStructure (p : Json) : Resp :=
  if !truthy p || jsTypeof p != "object" then
    jsonError "Invalid response structure: expected an object" 500
  else
    match jget p "items" with
    | some (.arr items) =>
      (match firstItemError items with
       | some msg => jsonError msg 500
       | none => ⟨200, p⟩)
    | _ => jsonError "Invalid response structure: expected 'items' to be an array" 500

/-- The specification's FoodItem shape constraint: an object with a string
`name` and an `estimatedGrams` that is `null` or a number `>= 0`. -/
def specValidItem : Json → Bool
  | .obj fields =>
    (match lookupField fields "name" with
     | some (.str _) => true
     | _ => false)
    &&
    (match lookupField fields "estimatedGrams" with
     | some .null => true
     | some (.num n) => decide (0 ≤ n)
     | _ => false)
  | _ => false

/-- The specification's AnalysisResult shape constraint: an object whose
`items` field is an array all of whose elements satisfy the FoodItem shape. -/
def specValidReply : Json → Bool
  | .obj fields =>
    (match lookupField fields "items" with
     | some (.arr items) => items.all specValidItem
     | _ => false)
  | _ => false

/-! ## String primitives of the extraction step -/

/-- The whitespace characters relevant to JavaScript `String.prototype.trim`
(space, tab, line feed, carriage return, vertical tab, form feed). -/
def jsWhitespace (c : Char) : Bool :=
  c = ' ' || c = '\t' || c = '\n' || c = '\r' || c = Char.ofNat 11 || c = Char.ofNat 12

/-- JavaScript `s.trim()`: remove leading and trailing whitespace. -/
def jsTrim (s : String) : String :=
  String.mk (((s.data.dropWhile jsWhitespace).reverse.dropWhile jsWhitespace).reverse)

/-- JavaScript `s.split(sep)` for a one-character separator; the result is
never the empty list (splitting the empty string gives one empty segment). -/
def splitOnChar (sep : Char) : List Char → List (List Char)
  | [] => [[]]
  | c :: rest =>
    if c = sep then [] :: splitOnChar sep rest
    else
      match splitOnChar sep rest with
      | g :: gs => (c :: g) :: gs
      | [] => [[c]]

/-- JavaScript `s.startsWith(pat)`. -/
def jsStartsWith (s pat : String) : Bool := pat.data.isPrefixOf s.data

/-- The markdown-fence extraction step of the analyze route (route.ts lines
101-113): trim; when the reply starts with a triple backtick, drop the first
line, drop the last line when present and equal (after trimming) to a bare
closing fence, rejoin with newlines and trim again. -/
def extractJson (text : String) : String :=
  let jsonText := jsTrim text
  if jsStartsWith jsonText "```" then
    let lines := (splitOnChar '\n' jsonText.data).map String.mk
    let lines1 := lines.drop 1
    let lines2 :=
      if 0 < lines1.length ∧ jsTrim (lines1.getLastD "") = "```" then lines1.dropLast
      else lines1
    jsTrim (String.intercalate "\n" lines2)
  else jsonText

/-- The extraction strategy in the specification's words: trim whitespace; if
the text begins with a triple-backtick fence, drop the first line (the fence
open, possibly with a language tag) and, when the last remaining line is a
bare closing fence, drop that too; rejoin and trim again before parsing. -/
def specFenceExtract (text : String) : String :=
  let t := jsTrim text
  if jsStartsWith t "```" then
    let body := ((splitOnChar '\n' t.data).map String.mk).tail
    let body2 :=
      match body.getLast? with
      | some lastLine => if jsTrim lastLine = "```" then body.dropLast else body
      | none => body
    jsTrim (String.intercalate "\n" body2)
  else t

/-! ## A model of `JSON.parse` on the subset of JSON the route's prompt
requests: objects, arrays, strings with the common single-character escapes,
integer numerals, `true`, `false` and `null`.  Inputs outside this subset
are parse errors. -/

/-- Whitespace accepted between JSON tokens. -/
def jsonWs (c : Char) : Bool := c = ' ' || c = '\t' || c = '\n' || c = '\r'

/-- The opening curly brace character. -/
def braceOpenChar : Char := Char.ofNat 123

/-- The closing curly brace character. -/
def braceCloseChar : Char := Char.ofNat 125

/-- Single-character JSON string escapes. -/
def escChar (e : Char) : Option Char :=
  if e = 'n' then some '\n'
  else if e = 't' then some '\t'
  else if e = 'r' then some '\r'
  else if e = '"' then some '"'
  else if e = '\\' then some '\\'
  else if e = '/' then some '/'
  else if e = 'b' then some (Char.ofNat 8)
  else if e = 'f' then some (Char.ofNat 12)
  else none

/-- Body of a JSON string literal (after the opening quote), accumulating
decoded characters in reverse. -/
def parseStrBody : List Char → List Char → Option (String × List Char)
  | [], _ => none
  | '"' :: rest, acc => some (String.mk acc.reverse, rest)
  | '\\' :: e :: rest, acc =>
    (match escChar e with
     | some c => parseStrBody rest (c :: acc)
     | none => none)
  | c :: rest, acc => parseStrBody rest (c :: acc)

/-- Value of a non-empty digit string. -/
def digitsToNat (ds : List Char) : Nat :=
  ds.foldl (fun a c => a * 10 + (c.toNat - Char.toNat '0')) 0

/-- An integer numeral: one or more decimal digits. -/
def parseNat (cs : List Char) : Option (Nat × List Char) :=
  let ds := cs.takeWhile Char.isDigit
  if ds.isEmpty then none
  else some (digitsToNat ds, cs.drop ds.length)

mutual

/-- One JSON value, fuel-bounded. -/
def parseVal : Nat → List Char → Option (Json × List Char)
  | 0, _ => none
  | fuel + 1, cs =>
    match cs.dropWhile jsonWs with
    | 'n' :: 'u' :: 'l' :: 'l' :: rest => some (.null, rest)
    | 't' :: 'r' :: 'u' :: 'e' :: rest => some (.bool true, rest)
    | 'f' :: 'a' :: 'l' :: 's' :: 'e' :: rest => some (.bool false, rest)
    | '"' :: rest =>
      (match parseStrBody rest [] with
       | some (s, rest1) => some (.str s, rest1)
       | none => none)
    | '[' :: rest =>
      (match rest.dropWhile jsonWs with
       | ']' :: rest1 => some (.arr [], rest1)
       | _ =>
         match parseItems fuel rest with
         | some (elems, rest1) => some (.arr elems, rest1)
         | none => none)
    | '-' :: rest =>
      (match parseNat rest with
       | some (n, rest1) => some (.num (-(n : Int)), rest1)
       | none => none)
    | c :: rest =>
      if c = braceOpenChar then
        match rest.dropWhile jsonWs with
        | d :: rest1 =>
          if d = braceCloseChar then some (.obj [], rest1)
          else
            (match parseFields fuel rest with
             | some (fields, rest1) => some (.obj fields, rest1)
             | none => none)
        | [] => none
      else if c.isDigit then
        match parseNat (c :: rest) with
        | some (n, rest1) => some (.num (n : Int), rest1)
        | none => none
      else none
    | [] => none

/-- Comma-separated array elements up to the closing bracket. -/
def parseItems : Nat → List Char → Option (List Json × List Char)
  | 0, _ => none
  | fuel + 1, cs =>
    match parseVal fuel cs with
    | none => none
    | some (v, rest) =>
      match rest.dropWhile jsonWs with
      | ',' :: rest1 =>
        (match parseItems fuel rest1 with
         | some (elems, rest2) => some (v :: elems, rest2)
         | none => none)
      | ']' :: rest1 => some ([v], rest1)
      | _ => none

/-- Comma-separated object members up to the closing brace. -/
def parseFields : Nat → List Char → Option (List (String × Json) × List Char)
  | 0, _ => none
  | fuel + 1, cs =>
    match cs.dropWhile jsonWs with
    | '"' :: rest =>
      (match parseStrBody rest [] with
       | none => none
       | some (k, rest1) =>
         match rest1.dropWhile jsonWs with
         | ':' :: rest2 =>
           (match parseVal fuel rest2 with
            | none => none
            | some (v, rest3) =>
              match rest3.dropWhile jsonWs with
              | ',' :: rest4 =>
                (match parseFields fuel rest4 with
                 | some (fields, rest5) => some ((k, v) :: fields, rest5)
                 | none => none)
              | d :: rest4 =>
                if d = braceCloseChar then some ([(k, v)], rest4) else none
              | [] => none)
         | _ => none)
    | _ => none

end

/-- `JSON.parse` on the modelled subset: parse one value and require that
only whitespace remains. -/
def parseJson (s : String) : Option Json :=
  match parseVal (2 * s.length + 4) s.data with
  | some (v, rest) => if rest.dropWhile jsonWs = [] then some v else none
  | none => none

/-- JavaScript `text.substring(0, n)`. -/
def jsSubstring0 (s : String) (n : Nat) : String := String.mk (s.data.take n)

/-- Processing of the model's reply text (route.ts lines 100-165): fence
extraction, `JSON.parse` (a parse failure is a 500 quoting the first 500
characters of the raw reply), then structure validation. -/
def processModelReply (text : String) : Resp :=
  match parseJson (extractJson text) with
  | none =>
    jsonError ("Failed to parse response as valid JSON. Raw response: " ++ jsSubstring0 text 500)
      500
  | some parsed => validateStructure parsed

/-! ## Upload route: filename generation (upload/route.ts lines 20-35) -/

/-- JavaScript `s.toLowerCase()` on the basic latin range, modelled
character by character. -/
def jsToLower (s : String) : String := String.mk (s.data.map Char.toLower)

/-- Membership in the character class `[a-z0-9]` of the sanitizing regex. -/
def isLowerAlnum (c : Char) : Bool :=
  (97 ≤ c.val && c.val ≤ 122) || (48 ≤ c.val && c.val ≤ 57)

/-- The regex replacement `/[^a-z0-9]+/g → "-"`: a state machine over the
characters, where the flag records whether we are inside a run of characters
outside `[a-z0-9]` (each maximal such run emits a single hyphen). -/
def collapseGo : Bool → List Char → List Char
  | _, [] => []
  | inRun, c :: rest =>
    if isLowerAlnum c then c :: collapseGo false rest
    else if inRun then collapseGo true rest
    else '-' :: collapseGo true rest

/-- The regex replacement `/^-+|-+$/g → ""`: drop leading and trailing runs
of hyphens. -/
def trimHyphens (cs : List Char) : List Char :=
  ((cs.dropWhile (fun c => c == '-')).reverse.dropWhile (fun c => c == '-')).reverse

/-- The regex replacement `/\.[^/.]+$/ → ""` of the upload route: remove a
trailing dot-plus-nonempty-run of characters other than `.` and `/`. -/
def stripExt (name : String) : String :=
  let rcs := name.data.reverse
  let suffix := rcs.takeWhile (fun c => !(c == '.') && !(c == '/'))
  match rcs.drop suffix.length with
  | '.' :: rest => if suffix.isEmpty then name else String.mk rest.reverse
  | _ => name

/-- `originalName.split(".").pop()?.toLowerCase() || ""` (the `|| ""` only
re-maps the empty string to itself, since `split` never yields an empty
array). -/
def jsExt (name : String) : String :=
  jsToLower (String.mk ((splitOnChar '.' name.data).getLastD []))

/-- The sanitized base name computed by `generateSafeFilename`: strip the
extension, lower-case, collapse runs outside `[a-z0-9]` to single hyphens,
trim hyphens. -/
def sourceBase (name : String) : String :=
  String.mk (trimHyphens (collapseGo false (jsToLower (stripExt name)).data))

/-- `generateSafeFilename` (upload/route.ts lines 20-35); `Date.now()` is
the `timestamp` parameter and `Math.random().toString(36).substring(2, 9)`
is the `random` parameter. -/
def generateSafeFilename (originalName : String) (timestamp : Nat) (random : String) : String :=
  sourceBase originalName ++ "-" ++ Nat.repr timestamp ++ "-" ++ random ++ "." ++ jsExt originalName

/-! Specification-side formulations of the same filename algorithm, written
per the specification's wording: map every character outside `[a-z0-9]` of
the lower-cased extension-stripped name to a hyphen, then merge adjacent
hyphens and trim them; the extension is the segment after the final dot
(the whole name when it has no dot), lower-cased. -/

/-- Replace a character outside `[a-z0-9]` by a hyphen. -/
def replHyphen (c : Char) : Char := if isLowerAlnum c then c else '-'

/-- Merge every run of adjacent hyphens into a single hyphen. -/
def squashDashes : List Char → List Char
  | [] => []
  | c :: rest =>
    match rest with
    | [] => [c]
    | d :: _ => if c == '-' && d == '-' then squashDashes rest else c :: squashDashes rest

/-- The specification's sanitized base segment. -/
def specSanitizedBase (name : String) : String :=
  String.mk (trimHyphens (squashDashes ((jsToLower (stripExt name)).data.map replHyphen)))

/-- The segment after the last occurrence of `sep` (the whole input when
`sep` does not occur), scanning left to right. -/
def lastSegGo (sep : Char) (cur : List Char) : List Char → List Char
  | [] => cur.reverse
  | c :: rest => if c = sep then lastSegGo sep [] rest else lastSegGo sep (c :: cur) rest

/-- The specification's extension: the part of the name after its final dot
(the whole name when it has no dot), lower-cased. -/
def specExt (name : String) : String :=
  jsToLower (String.mk (lastSegGo '.' [] name.data))

/-! ## Upload route handler (upload/route.ts lines 37-86) -/

/-- The `file` form field: original name, declared MIME type, raw bytes. -/
structure UploadedFile where
  name : String
  type : String
  content : List Nat

/-- Outcomes of the filesystem operations the handler may attempt. -/
structure FsEnv where
  uploadDirExists : Bool
  mkdirOk : Bool
  writeOk : Bool

/-- Filesystem side effects performed by the upload handler. -/
inductive FsEvent where
  | mkdirEvt (path : String)
  | writeEvt (path : String) (content : List Nat)

/-- The MIME allow-list of the upload route. -/
def ALLOWED_TYPES : List String :=
  ["image/png", "image/jpeg", "image/jpg", "image/webp", "image/gif"]

/-- `join(process.cwd(), "public", "uploads")`, relative to the process
working directory. -/
def UPLOAD_DIR : String := "public/uploads"

/-- The part of the upload handler after `ensureUploadDir()`: missing-file
check, MIME allow-list check, filename generation, disk write, response. -/
def uploadAfterDir (file? : Option UploadedFile) (env : FsEnv) (timestamp : Nat)
    (random : String) (evts : List FsEvent) : Resp × List FsEvent :=
  match file? with
  | none => (jsonError "No file provided" 400, evts)
  | some file =>
    if !(ALLOWED_TYPES.contains file.type) then
      (jsonError "Invalid file type. Only PNG, JPG, JPEG, WEBP, and GIF images are allowed." 400,
        evts)
    else
      let safeFilename := generateSafeFilename file.name timestamp random
      let filePath := UPLOAD_DIR ++ "/" ++ safeFilename
      let evts2 := evts ++ [FsEvent.writeEvt filePath file.content]
      if env.writeOk then
        let imageUrl := "/uploads/" ++ safeFilename
        (⟨200, .obj [("imageUrl", .str imageUrl), ("url", .str imageUrl)]⟩, evts2)
      else
        (jsonError "Failed to upload file" 500, evts2)

/-- The upload handler `POST`: `ensureUploadDir()` runs first (creating the
upload directory when absent; a failure there is caught by the outer
handler and answered 500), then the request is processed.  The second
component lists the filesystem events of the request. -/
def uploadPOST (file? : Option UploadedFile) (env : FsEnv) (timestamp : Nat)
    (random : String) : Resp × List FsEvent :=
  if env.uploadDirExists then
    uploadAfterDir file? env timestamp random []
  else if env.mkdirOk then
    uploadAfterDir file? env timestamp random [FsEvent.mkdirEvt UPLOAD_DIR]
  else
    (jsonError "Failed to upload file" 500, [FsEvent.mkdirEvt UPLOAD_DIR])

/-! Character-level facts needed for the success-path URL pattern. -/

/-! ## Analyze route handler (analyze/route.ts lines 17-173) -/

/-- JavaScript `s.endsWith(pat)`, via reversed character lists. -/
def jsEndsWith (s pat : String) : Bool := pat.data.reverse.isPrefixOf s.data.reverse

/-- MIME-type inference of the analyze route (route.ts lines 59-67): decided
solely by the lower-cased URL's ending, defaulting to `image/jpeg`. -/
def mimeTypeOf (url : String) : String :=
  if jsEndsWith (jsToLower url) ".png" then "image/png"
  else if jsEndsWith (jsToLower url) ".webp" then "image/webp"
  else if jsEndsWith (jsToLower url) ".gif" then "image/gif"
  else "image/jpeg"

/-- Outcome of `fetch(imageUrl)`: a network failure, or a response with its
`ok` flag, status, status text and body bytes. -/
inductive FetchOutcome where
  | netError (msg : String)
  | response (ok : Bool) (status : Nat) (statusText : String) (bytes : List Nat)

/-- Process environment and external-world behaviour for one analyze
request: the `GEMINI_API_KEY` variable (`none` when unset), the fetch
outcome for the request's URL, and the text of the model's reply. -/
structure AnalyzeEnv where
  apiKey : Option String
  fetchResult : FetchOutcome
  modelReply : String

/-- Outbound effects of the analyze handler: the image fetch and the model
invocation with its inline image payload. -/
inductive AnaEvent where
  | fetchEvt (url : String)
  | invokeEvt (mimeType : String) (imageBytes : List Nat)

/-- JavaScript truthiness of `process.env.GEMINI_API_KEY` (unset and empty
are both falsy). -/
def keyTruthy : Option String → Bool
  | some k => decide (k ≠ "")
  | none => false

/-- The analyze handler `POST`, given the parsed request body and the
environment.  `const { imageUrl } = body` throws on a `null` body; the
outer try/catch answers that with a 500.  The second component lists the
outbound calls performed. -/
def analyzePOST (body : Json) (env : AnalyzeEnv) : Resp × List AnaEvent :=
  match body with
  | .null =>
    (jsonError "Cannot destructure property 'imageUrl' of 'body' as it is null." 500, [])
  | _ =>
    match jget body "imageUrl" with
    | some (.str s) =>
      if jsTrim s = "" then
        (jsonError "imageUrl is required and must be a non-empty string" 400, [])
      else if !keyTruthy env.apiKey then
        (jsonError "GEMINI_API_KEY environment variable is not set" 500, [])
      else
        match env.fetchResult with
        | .netError msg =>
          (jsonError ("Failed to fetch image from URL: " ++ msg) 400, [AnaEvent.fetchEvt s])
        | .response ok st stx bytes =>
          if !ok then
            (jsonError ("Failed to fetch image from URL: Failed to fetch image: " ++
                Nat.repr st ++ " " ++ stx) 400,
              [AnaEvent.fetchEvt s])
          else
            (processModelReply env.modelReply,
              [AnaEvent.fetchEvt s, AnaEvent.invokeEvt (mimeTypeOf s) bytes])
    | _ => (jsonError "imageUrl is required and must be a non-empty string" 400, [])

/-- On an object item the first (truthiness and `typeof`) check passes, so
only the `name` and `estimatedGrams` lookups matter. -/
theorem itemError_obj (fields : List (String × Json)) :
    itemError (.obj fields) =
      (if jsTypeofOpt (lookupField fields "name") != "string" then
         some "Invalid response structure: each item must have a 'name' string property"
       else if gramsBad (lookupField fields "estimatedGrams") then
         some "Invalid response structure: 'estimatedGrams' must be a number >= 0 or null"
       else none) := by
  simp [itemError, truthy, jsTypeof, jget]

theorem itemError_eq_none_iff (item : Json) :
    itemError item = none ↔ specValidItem item = true := by
  cases item with
  | obj fields =>
    rw [itemError_obj]
    simp only [specValidItem]
    generalize lookupField fields "name" = n0
    generalize lookupField fields "estimatedGrams" = g0
    cases n0 with
    | none => simp [jsTypeofOpt]
    | some v =>
      cases v with
      | str s =>
        cases g0 with
        | none => simp [jsTypeofOpt, jsTypeof, gramsBad]
        | some w =>
          cases w with
          | num n => simp [jsTypeofOpt, jsTypeof, gramsBad]
          | null => simp [jsTypeofOpt, jsTypeof, gramsBad]
          | bool b => simp [jsTypeofOpt, jsTypeof, gramsBad]
          | str t => simp [jsTypeofOpt, jsTypeof, gramsBad]
          | arr l => simp [jsTypeofOpt, jsTypeof, gramsBad]
          | obj g => simp [jsTypeofOpt, jsTypeof, gramsBad]
      | null => simp [jsTypeofOpt, jsTypeof]
      | bool b => simp [jsTypeofOpt, jsTypeof]
      | num n => simp [jsTypeofOpt, jsTypeof]
      | arr l => simp [jsTypeofOpt, jsTypeof]
      | obj g => simp [jsTypeofOpt, jsTypeof]
  | null => simp [itemError, truthy, specValidItem]
  | bool b => cases b <;> simp [itemError, truthy, jsTypeof, specValidItem]
  | num n => by_cases h : n = 0 <;> simp [itemError, truthy, jsTypeof, specValidItem, h]
  | str s => by_cases h : s = "" <;> simp [itemError, truthy, jsTypeof, specValidItem, h]
  | arr l => simp [itemError, truthy, jsTypeof, specValidItem, jget, jsTypeofOpt]

theorem firstItemError_eq_none_iff (items : List Json) :
    firstItemError items = none ↔ items.all specValidItem = true := by
  induction items with
  | nil => simp [firstItemError]
  | cons item rest ih =>
    cases h : itemError item with
    | some msg =>
      have hni : specValidItem item = false := by
        cases hv : specValidItem item
        · rfl
        · exact absurd ((itemError_eq_none_iff item).2 hv) (by simp [h])
      simp [firstItemError, h, hni]
    | none =>
      have hv : specValidItem item = true := (itemError_eq_none_iff item).1 h
      simp [firstItemError, h, hv, ih]

/-- Unfolding of `validateStructure` on an object input: everything after the
top-level `typeof` test depends only on the `items` property. -/
theorem validateStructure_obj (fields : List (String × Json)) :
    validateStructure (.obj fields) =
      match lookupField fields "items" with
      | some (.arr items) =>
        (match firstItemError items with
         | some msg => jsonError msg 500
         | none => ⟨200, .obj fields⟩)
      | _ => jsonError "Invalid response structure: expected 'items' to be an array" 500 := by
  simp [validateStructure, truthy, jsTypeof, jget]

theorem validate_eq_ok_iff (j : Json) :
    validateStructure j = ⟨200, j⟩ ↔ specValidReply j = true := by
  cases j with
  | obj fields =>
    rw [validateStructure_obj]
    simp only [specValidReply]
    cases h : lookupField fields "items" with
    | none => simp [jsonError]
    | some v =>
      cases v with
      | arr items =>
        cases he : firstItemError items with
        | some msg =>
          have hall : items.all specValidItem = false := by
            cases hv : items.all specValidItem
            · rfl
            · exact absurd ((firstItemError_eq_none_iff items).2 hv) (by simp [he])
          simp [jsonError, he, hall]
        | none =>
          simp [he, (firstItemError_eq_none_iff items).1 he]
      | null => simp [jsonError]
      | bool b => simp [jsonError]
      | num n => simp [jsonError]
      | str s => simp [jsonError]
      | obj g => simp [jsonError]
  | null => simp [validateStructure, truthy, specValidReply, jsonError]
  | bool b => cases b <;> simp [validateStructure, truthy, jsTypeof, specValidReply, jsonError]
  | num n =>
    by_cases h : n = 0 <;> simp [validateStructure, truthy, jsTypeof, specValidReply, jsonError, h]
  | str s =>
    by_cases h : s = "" <;> simp [validateStructure, truthy, jsTypeof, specValidReply, jsonError, h]
  | arr l => simp [validateStructure, truthy, jsTypeof, jget, specValidReply, jsonError]

theorem validate_cases (j : Json) :
    validateStructure j = ⟨200, j⟩ ∨ ∃ msg, validateStructure j = jsonError msg 500 := by
  cases j with
  | obj fields =>
    rw [validateStructure_obj]
    split
    · split
      · next msg _ => exact Or.inr ⟨msg, rfl⟩
      · exact Or.inl rfl
    · exact Or.inr ⟨_, rfl⟩
  | null => exact Or.inr ⟨"Invalid response structure: expected an object", rfl⟩
  | bool b =>
    cases b with
    | false => exact Or.inr ⟨"Invalid response structure: expected an object", rfl⟩
    | true => exact Or.inr ⟨"Invalid response structure: expected an object", rfl⟩
  | num n =>
    exact Or.inr ⟨"Invalid response structure: expected an object",
      by by_cases h : n = 0 <;> simp [validateStructure, truthy, jsTypeof, h]⟩
  | str s =>
    exact Or.inr ⟨"Invalid response structure: expected an object",
      by by_cases h : s = "" <;> simp [validateStructure, truthy, jsTypeof, h]⟩
  | arr l =>
    exact Or.inr ⟨"Invalid response structure: expected 'items' to be an array", rfl⟩

/-- Status of validation on an object reply as a function of its `items`
property alone. -/
theorem validateStructure_obj_status (fs : List (String × Json)) :
    (validateStructure (.obj fs)).status =
      (match lookupField fs "items" with
       | some (.arr items) =>
         (match firstItemError items with
          | some _ => 500
          | none => 200)
       | _ => 500) := by
  rw [validateStructure_obj]
  split
  · split <;> rfl
  · rfl

/-- C1: Analyze shape validation is fail-closed: for every parsed model
reply, if the top-level value is not an object, or its `items` field is not
an array, or any element of `items` is not an object with a string `name`
and an `estimatedGrams` that is either null or a number >= 0, the validation
stage answers status 500 with an explanatory `error` body carrying no items;
in particular an `estimatedGrams` equal to the string "150" yields that 500
and is never coerced to a number. -/
theorem analyze_shape_validation_fail_closed :
    (∀ j : Json, specValidReply j = false →
      (validateStructure j).status = 500 ∧
      jget (validateStructure j).body "items" = none ∧
      ∃ msg, validateStructure j = jsonError msg 500) ∧
    validateStructure
        (.obj [("items", .arr [.obj [("name", .str "apple"), ("estimatedGrams", .str "150")]])]) =
      jsonError "Invalid response structure: 'estimatedGrams' must be a number >= 0 or null" 500 ∧
    (processModelReply "\x7b\"items\":[\x7b\"name\":\"apple\",\"estimatedGrams\":\"150\"\x7d]\x7d").status =
      500 := by
  refine ⟨?_, rfl, rfl⟩
  intro j hj
  rcases validate_cases j with hok | ⟨msg, he⟩
  · exact absurd ((validate_eq_ok_iff j).1 hok) (by simp [hj])
  · exact ⟨by rw [he]; rfl, by rw [he]; rfl, msg, he⟩

/-- Closed witness for C1 at a concrete invalid reply (a bare string). -/
theorem analyze_shape_validation_fail_closed_witness :
    (validateStructure (.str "nope")).status = 500 :=
  (analyze_shape_validation_fail_closed.1 (.str "nope") rfl).1

/-- C10: validation inspects only the `items` array and, per element, only
the `name` and `estimatedGrams` fields: the response status depends only on
the `items` property of the reply object, an item's verdict depends only on
its `name` and `estimatedGrams` properties, and a reply that passes is
echoed back verbatim, extra properties included. -/
theorem validation_ignores_extra_properties :
    (∀ fs gs : List (String × Json), lookupField fs "items" = lookupField gs "items" →
      (validateStructure (.obj fs)).status = (validateStructure (.obj gs)).status) ∧
    (∀ fs : List (String × Json), (validateStructure (.obj fs)).status = 200 →
      validateStructure (.obj fs) = ⟨200, .obj fs⟩) ∧
    (∀ f g : List (String × Json),
      lookupField f "name" = lookupField g "name" →
      lookupField f "estimatedGrams" = lookupField g "estimatedGrams" →
      itemError (.obj f) = itemError (.obj g)) ∧
    validateStructure
        (.obj [("confidence", .num 9),
               ("items", .arr [.obj [("name", .str "apple"), ("estimatedGrams", .null),
                                     ("note", .str "sliced")]])]) =
      ⟨200, .obj [("confidence", .num 9),
                  ("items", .arr [.obj [("name", .str "apple"), ("estimatedGrams", .null),
                                        ("note", .str "sliced")]])]⟩ := by
  refine ⟨?_, ?_, ?_, rfl⟩
  · intro fs gs h
    rw [validateStructure_obj_status, validateStructure_obj_status, h]
  · intro fs h
    rcases validate_cases (.obj fs) with hok | ⟨msg, he⟩
    · exact hok
    · rw [he] at h
      exact absurd h (by simp [jsonError])
  · intro f g h1 h2
    rw [itemError_obj, itemError_obj, h1, h2]

/-- Closed witness for C10 at concrete objects that agree on the inspected
fields but differ elsewhere. -/
theorem validation_ignores_extra_properties_witness :
    (validateStructure (.obj [("a", Json.null)])).status =
      (validateStructure (.obj [("b", Json.str "x")])).status :=
  validation_ignores_extra_properties.1 [("a", Json.null)] [("b", Json.str "x")] rfl

/-- C2: the fence-extraction step, applied to any model reply text, first
trims whitespace; if the trimmed text starts with a triple backtick it drops
the first line, then drops the last remaining line exactly when that line
trimmed equals a bare closing fence, then rejoins and trims again (stated as
a refinement against the specification's wording); in particular the fenced
apple reply extracts to exactly the inner JSON object and is answered with
status 200 carrying it verbatim. -/
theorem fence_extraction_spec :
    (∀ s : String, extractJson s = specFenceExtract s) ∧
    extractJson "```json\n\x7b\"items\":[\x7b\"name\":\"apple\",\"estimatedGrams\":150\x7d]\x7d\n```" =
      "\x7b\"items\":[\x7b\"name\":\"apple\",\"estimatedGrams\":150\x7d]\x7d" ∧
    processModelReply
        "```json\n\x7b\"items\":[\x7b\"name\":\"apple\",\"estimatedGrams\":150\x7d]\x7d\n```" =
      ⟨200, .obj [("items", .arr [.obj [("name", .str "apple"), ("estimatedGrams", .num 150)]])]⟩ := by
  refine ⟨?_, rfl, rfl⟩
  intro s
  unfold extractJson specFenceExtract
  by_cases h : jsStartsWith (jsTrim s) "```" = true
  · simp only [h, if_true, List.drop_one]
    congr 1
    congr 1
    generalize ((splitOnChar '\n' (jsTrim s).data).map String.mk).tail = body
    cases body with
    | nil => simp
    | cons a l =>
      have hx : ∃ x, (a :: l).getLast? = some x := by
        cases hg : (a :: l).getLast? with
        | none => exact absurd (List.getLast?_eq_none_iff.1 hg) (by simp)
        | some x => exact ⟨x, rfl⟩
      rcases hx with ⟨x, hx⟩
      simp [List.getLastD_eq_getLast?, hx]
  · simp only [h, if_false]
    simp at h
    simp [h]

theorem squashDashes_cons_ne (c : Char) (xs : List Char) (h : (c == '-') = false) :
    squashDashes (c :: xs) = c :: squashDashes xs := by
  cases xs <;> simp [squashDashes, h]

theorem isLowerAlnum_ne_dash (c : Char) (hc : isLowerAlnum c = true) : (c == '-') = false := by
  cases hcb : c == '-' with
  | false => rfl
  | true =>
    rw [eq_of_beq hcb] at hc
    exact absurd hc (by decide)

theorem collapseGo_eq_squash (cs : List Char) :
    collapseGo false cs = squashDashes (cs.map replHyphen) ∧
    '-' :: collapseGo true cs = squashDashes ('-' :: cs.map replHyphen) := by
  induction cs with
  | nil => exact ⟨rfl, rfl⟩
  | cons c rest ih =>
    by_cases hc : isLowerAlnum c = true
    · have hrc : replHyphen c = c := by simp [replHyphen, hc]
      have hcd : (c == '-') = false := isLowerAlnum_ne_dash c hc
      constructor
      · rw [List.map_cons, hrc, squashDashes_cons_ne c _ hcd]
        simp [collapseGo, hc, ih.1]
      · rw [List.map_cons, hrc]
        have h1 : squashDashes ('-' :: c :: rest.map replHyphen) =
            '-' :: squashDashes (c :: rest.map replHyphen) := by
          simp [squashDashes, hcd]
        rw [h1, squashDashes_cons_ne c _ hcd]
        simp [collapseGo, hc, ih.1]
    · have hrc : replHyphen c = '-' := by simp [replHyphen, hc]
      constructor
      · rw [List.map_cons, hrc]
        simpa [collapseGo, hc] using ih.2
      · rw [List.map_cons, hrc]
        have h1 : squashDashes ('-' :: '-' :: rest.map replHyphen) =
            squashDashes ('-' :: rest.map replHyphen) := by
          simp [squashDashes]
        rw [h1]
        simpa [collapseGo, hc] using ih.2

theorem sourceBase_eq_spec (name : String) : sourceBase name = specSanitizedBase name := by
  unfold sourceBase specSanitizedBase
  rw [(collapseGo_eq_squash _).1]

theorem splitOnChar_ne_nil (sep : Char) (cs : List Char) : splitOnChar sep cs ≠ [] := by
  cases cs with
  | nil => simp [splitOnChar]
  | cons c rest =>
    simp only [splitOnChar]
    split
    · simp
    · split <;> simp

theorem getLastD_cons_irrel {α : Type _} (x : α) (xs : List α) (d e : α) :
    (x :: xs).getLastD d = (x :: xs).getLastD e := by
  rcases h : (x :: xs).getLast? with _ | y
  · exact absurd (List.getLast?_eq_none_iff.1 h) (by simp)
  · simp [List.getLastD_eq_getLast?, h]

theorem lastSegGo_splitOnChar (sep : Char) (cs : List Char) : ∀ acc : List Char,
    lastSegGo sep acc cs =
      (match splitOnChar sep cs with
       | [g] => acc.reverse ++ g
       | _ :: gs => gs.getLastD []
       | [] => acc.reverse) := by
  induction cs with
  | nil => intro acc; simp [lastSegGo, splitOnChar]
  | cons c rest ih =>
    intro acc
    by_cases hc : c = sep
    · subst hc
      rw [show lastSegGo c acc (c :: rest) = lastSegGo c [] rest by simp [lastSegGo]]
      rw [ih []]
      rw [show splitOnChar c (c :: rest) = [] :: splitOnChar c rest by simp [splitOnChar]]
      rcases hsp : splitOnChar c rest with _ | ⟨g0, gs⟩
      · exact absurd hsp (splitOnChar_ne_nil c rest)
      · cases gs with
        | nil => simp
        | cons g1 gs1 => simp [getLastD_cons_irrel g1 gs1 g0 []]
    · rw [show lastSegGo sep acc (c :: rest) = lastSegGo sep (c :: acc) rest by
        simp [lastSegGo, hc]]
      rw [ih (c :: acc)]
      have hsc : splitOnChar sep (c :: rest) =
          (match splitOnChar sep rest with
           | g :: gs => (c :: g) :: gs
           | [] => [[c]]) := by
        simp [splitOnChar, hc]
      rcases hsp : splitOnChar sep rest with _ | ⟨g0, gs⟩
      · exact absurd hsp (splitOnChar_ne_nil sep rest)
      · rw [hsp] at hsc
        rw [hsc]
        cases gs with
        | nil => simp
        | cons g1 gs1 => simp

theorem jsExt_eq_specExt (name : String) : jsExt name = specExt name := by
  unfold jsExt specExt
  congr 3
  rw [lastSegGo_splitOnChar '.' name.data []]
  rcases hsp : splitOnChar '.' name.data with _ | ⟨g0, gs⟩
  · exact absurd hsp (splitOnChar_ne_nil '.' name.data)
  · cases gs with
    | nil => simp
    | cons g1 gs1 => simp [getLastD_cons_irrel g1 gs1 g0 []]

/-- The generated filename decomposes exactly as the specification states. -/
theorem generateSafeFilename_decompose (name : String) (ts : Nat) (tok : String) :
    generateSafeFilename name ts tok =
      specSanitizedBase name ++ "-" ++ Nat.repr ts ++ "-" ++ tok ++ "." ++ specExt name := by
  unfold generateSafeFilename
  rw [sourceBase_eq_spec, jsExt_eq_specExt]

theorem lastSegGo_no_sep (sep : Char) (cs : List Char) (h : ∀ c ∈ cs, ¬(c = sep)) :
    ∀ acc : List Char, lastSegGo sep acc cs = acc.reverse ++ cs := by
  induction cs with
  | nil => intro acc; simp [lastSegGo]
  | cons c rest ih =>
    intro acc
    have hc : ¬(c = sep) := h c (by simp)
    rw [show lastSegGo sep acc (c :: rest) = lastSegGo sep (c :: acc) rest by
      simp [lastSegGo, hc]]
    rw [ih (fun d hd => h d (by simp [hd])) (c :: acc)]
    simp

/-- C3: for every original filename, the generated stored filename equals
the sanitized base segment (extension stripped, lower-cased, runs outside
`[a-z0-9]` collapsed to single hyphens, hyphens trimmed at both ends)
followed by `-<timestamp>-<random-token>.<extension-lower-cased>`; in
particular the name "My Lunch Photo!! .PNG" yields base segment exactly
"my-lunch-photo" and extension "png". -/
theorem safe_filename_matches_spec :
    (∀ (name : String) (ts : Nat) (tok : String),
      generateSafeFilename name ts tok =
        specSanitizedBase name ++ "-" ++ Nat.repr ts ++ "-" ++ tok ++ "." ++ specExt name) ∧
    specSanitizedBase "My Lunch Photo!! .PNG" = "my-lunch-photo" ∧
    specExt "My Lunch Photo!! .PNG" = "png" ∧
    generateSafeFilename "My Lunch Photo!! .PNG" 1700000000000 "a1b2c3d" =
      "my-lunch-photo-1700000000000-a1b2c3d.png" := by
  refine ⟨generateSafeFilename_decompose, by decide, by decide, by decide⟩

/-- C9: for every original filename containing no dot, the filename
generator uses the entire lower-cased original name as the extension, so the
stored filename is `<sanitized-base>-<timestamp>-<token>.<lowercased-name>`;
in particular a file named "photo" is stored as
"photo-<timestamp>-<token>.photo". -/
theorem no_dot_name_becomes_extension :
    (∀ (name : String) (ts : Nat) (tok : String),
      name.data.all (fun c => !(c == '.')) = true →
      generateSafeFilename name ts tok =
        specSanitizedBase name ++ "-" ++ Nat.repr ts ++ "-" ++ tok ++ "." ++ jsToLower name) ∧
    generateSafeFilename "photo" 1700000000000 "a1b2c3d" =
      "photo-1700000000000-a1b2c3d.photo" := by
  constructor
  · intro name ts tok h
    rw [generateSafeFilename_decompose]
    have hext : specExt name = jsToLower name := by
      unfold specExt
      have hnd : ∀ c ∈ name.data, ¬(c = '.') := by
        intro c hc
        have := List.all_eq_true.1 h c hc
        simpa using this
      rw [lastSegGo_no_sep '.' name.data hnd []]
      cases name
      rfl
    rw [hext]
  · decide

/-- Closed witness for C9 at the dotless name "photo". -/
theorem no_dot_name_becomes_extension_witness :
    generateSafeFilename "photo" 1700000000000 "a1b2c3d" =
      specSanitizedBase "photo" ++ "-" ++ Nat.repr 1700000000000 ++ "-" ++ "a1b2c3d" ++ "." ++
        jsToLower "photo" :=
  no_dot_name_becomes_extension.1 "photo" 1700000000000 "a1b2c3d" (by decide)

/-- C4 counterexample: a disallowed-type upload arriving while the uploads
directory does not yet exist is answered 400, but the handler has already
created the uploads directory — a filesystem write — because
`ensureUploadDir()` runs before any validation. -/
theorem upload_rejected_type_mkdir_counterexample :
    (uploadPOST (some ⟨"doc.pdf", "application/pdf", [37, 80, 68, 70]⟩)
        ⟨false, true, true⟩ 1700000000000 "a1b2c3d").1.status = 400 ∧
    (uploadPOST (some ⟨"doc.pdf", "application/pdf", [37, 80, 68, 70]⟩)
        ⟨false, true, true⟩ 1700000000000 "a1b2c3d").2 = [FsEvent.mkdirEvt UPLOAD_DIR] :=
  ⟨rfl, rfl⟩

/-- C4 (amended): for every upload whose declared MIME type is outside the
allow-list, provided directory creation does not itself fail, the handler
answers 400 with the explanatory message and writes no file; the only
filesystem mutation it may perform is creating the uploads directory (which
happens before validation, and only when the directory is absent). -/
theorem upload_rejected_type_no_file_write :
    ∀ (f : UploadedFile) (env : FsEnv) (ts : Nat) (tok : String),
      ALLOWED_TYPES.contains f.type = false →
      (env.uploadDirExists = true ∨ env.mkdirOk = true) →
      (uploadPOST (some f) env ts tok).1 =
        jsonError "Invalid file type. Only PNG, JPG, JPEG, WEBP, and GIF images are allowed." 400 ∧
      (∀ e ∈ (uploadPOST (some f) env ts tok).2, e = FsEvent.mkdirEvt UPLOAD_DIR) ∧
      (env.uploadDirExists = true → (uploadPOST (some f) env ts tok).2 = []) := by
  intro f env ts tok htype hdir
  have hmem : f.type ∉ ALLOWED_TYPES := by simpa using htype
  unfold uploadPOST uploadAfterDir
  cases hde : env.uploadDirExists
  · rcases hdir with h | h
    · rw [hde] at h; cases h
    · simp [hde, h, hmem]
  · simp [hde, hmem]

/-- Closed witness for C4's amended theorem at a concrete PDF upload. -/
theorem upload_rejected_type_no_file_write_witness :
    (uploadPOST (some ⟨"doc.pdf", "application/pdf", [37]⟩) ⟨true, true, true⟩ 1 "z").1 =
      jsonError "Invalid file type. Only PNG, JPG, JPEG, WEBP, and GIF images are allowed." 400 ∧
    (uploadPOST (some ⟨"doc.pdf", "application/pdf", [37]⟩) ⟨true, true, true⟩ 1 "z").2 = [] := by
  have h := upload_rejected_type_no_file_write ⟨"doc.pdf", "application/pdf", [37]⟩
    ⟨true, true, true⟩ 1 "z" (by decide) (Or.inl rfl)
  exact ⟨h.1, h.2.2 rfl⟩

theorem collapseGo_chars (cs : List Char) : ∀ (b : Bool), ∀ c ∈ collapseGo b cs,
    isLowerAlnum c = true ∨ c = '-' := by
  induction cs with
  | nil => intro b c hc; simp [collapseGo] at hc
  | cons d rest ih =>
    intro b c hc
    by_cases hd : isLowerAlnum d = true
    · rw [show collapseGo b (d :: rest) = d :: collapseGo false rest by
        cases b <;> simp [collapseGo, hd]] at hc
      rcases List.mem_cons.1 hc with rfl | hc2
      · exact Or.inl hd
      · exact ih false c hc2
    · cases b with
      | true =>
        rw [show collapseGo true (d :: rest) = collapseGo true rest by
          simp [collapseGo, hd]] at hc
        exact ih true c hc
      | false =>
        rw [show collapseGo false (d :: rest) = '-' :: collapseGo true rest by
          simp [collapseGo, hd]] at hc
        rcases List.mem_cons.1 hc with rfl | hc2
        · exact Or.inr rfl
        · exact ih true c hc2

theorem trimHyphens_subset (cs : List Char) : ∀ c ∈ trimHyphens cs, c ∈ cs := by
  intro c hc
  unfold trimHyphens at hc
  rw [List.mem_reverse] at hc
  have h1 : c ∈ (cs.dropWhile (fun c => c == '-')).reverse :=
    (List.dropWhile_sublist _).subset hc
  rw [List.mem_reverse] at h1
  exact (List.dropWhile_sublist _).subset h1

theorem specSanitizedBase_chars (name : String) :
    ∀ c ∈ (specSanitizedBase name).data, isLowerAlnum c = true ∨ c = '-' := by
  intro c hc
  rw [← sourceBase_eq_spec] at hc
  exact collapseGo_chars _ false c (trimHyphens_subset _ c hc)

theorem digitChar_isDigit (m : Nat) (h : m < 10) : (Nat.digitChar m).isDigit = true := by
  interval_cases m <;> decide

theorem toDigitsCore_digits (fuel : Nat) : ∀ (n : Nat) (ds : List Char),
    (∀ c ∈ ds, c.isDigit = true) → ∀ c ∈ Nat.toDigitsCore 10 fuel n ds, c.isDigit = true := by
  induction fuel with
  | zero =>
    intro n ds hds c hc
    exact hds c (by simpa [Nat.toDigitsCore] using hc)
  | succ fuel ih =>
    intro n ds hds c hc
    rw [show Nat.toDigitsCore 10 (fuel + 1) n ds =
        (if n / 10 = 0 then Nat.digitChar (n % 10) :: ds
         else Nat.toDigitsCore 10 fuel (n / 10) (Nat.digitChar (n % 10) :: ds)) from rfl] at hc
    have hdd : ∀ x ∈ Nat.digitChar (n % 10) :: ds, x.isDigit = true := by
      intro x hx
      rcases List.mem_cons.1 hx with rfl | hx2
      · exact digitChar_isDigit _ (Nat.mod_lt _ (by norm_num))
      · exact hds x hx2
    by_cases hz : n / 10 = 0
    · rw [if_pos hz] at hc
      exact hdd c hc
    · rw [if_neg hz] at hc
      exact ih (n / 10) _ hdd c hc

theorem repr_digits (n : Nat) : ∀ c ∈ (Nat.repr n).data, c.isDigit = true := by
  intro c hc
  exact toDigitsCore_digits (n + 1) n [] (by simp) c
    (by simpa [Nat.repr, Nat.toDigits, List.asString] using hc)

theorem isDigit_isLowerAlnum (c : Char) (h : c.isDigit = true) : isLowerAlnum c = true := by
  unfold Char.isDigit at h
  unfold isLowerAlnum
  simp only [Bool.and_eq_true, decide_eq_true_eq, ge_iff_le] at h
  simp only [Bool.or_eq_true, Bool.and_eq_true, decide_eq_true_eq]
  exact Or.inr ⟨h.1, h.2⟩

/-- C5: for every upload whose declared MIME type is on the allow-list and
whose disk write succeeds, the handler answers 200 with a body whose
`imageUrl` and `url` both equal `/uploads/<generated-filename>`, and the
URL matches the pattern `/uploads/[a-z0-9-]+.<ext>` for the file's
extension (the random token is a base-36 string, hence within `[a-z0-9]`). -/
theorem upload_success_contract :
    ∀ (f : UploadedFile) (env : FsEnv) (ts : Nat) (tok : String),
      ALLOWED_TYPES.contains f.type = true →
      (env.uploadDirExists = true ∨ env.mkdirOk = true) →
      env.writeOk = true →
      tok.data.all isLowerAlnum = true →
      (uploadPOST (some f) env ts tok).1 =
        ⟨200, .obj [("imageUrl", .str ("/uploads/" ++ generateSafeFilename f.name ts tok)),
                    ("url", .str ("/uploads/" ++ generateSafeFilename f.name ts tok))]⟩ ∧
      ∃ core : String,
        "/uploads/" ++ generateSafeFilename f.name ts tok =
          "/uploads/" ++ core ++ "." ++ jsExt f.name ∧
        core ≠ "" ∧
        core.data.all (fun c => isLowerAlnum c || c == '-') = true := by
  intro f env ts tok htype hdir hw htok
  have hmem : f.type ∈ ALLOWED_TYPES := by simpa using htype
  constructor
  · unfold uploadPOST uploadAfterDir
    cases hde : env.uploadDirExists
    · rcases hdir with h | h
      · rw [hde] at h; cases h
      · simp [hde, h, hmem, hw]
    · simp [hde, hmem, hw]
  · refine ⟨specSanitizedBase f.name ++ "-" ++ Nat.repr ts ++ "-" ++ tok, ?_, ?_, ?_⟩
    · rw [generateSafeFilename_decompose, jsExt_eq_specExt]
      simp [String.append_assoc]
    · intro hcore
      have h2 := congrArg String.data hcore
      simp only [String.data_append] at h2
      simp at h2
    · simp only [String.data_append, List.all_append, Bool.and_eq_true]
      refine ⟨⟨⟨⟨?_, ?_⟩, ?_⟩, ?_⟩, ?_⟩
      · rw [List.all_eq_true]
        intro c hc
        rcases specSanitizedBase_chars f.name c hc with h | h
        · simp [h]
        · simp [h]
      · decide
      · rw [List.all_eq_true]
        intro c hc
        simp [isDigit_isLowerAlnum c (repr_digits ts c hc)]
      · decide
      · rw [List.all_eq_true]
        intro c hc
        simp [List.all_eq_true.1 htok c hc]

/-- Closed witness for C5 at a concrete PNG upload. -/
theorem upload_success_contract_witness :
    (uploadPOST (some ⟨"My Lunch Photo!! .PNG", "image/png", [1, 2, 3]⟩)
        ⟨true, true, true⟩ 1700000000000 "a1b2c3d").1 =
      ⟨200, .obj [("imageUrl", .str ("/uploads/" ++
                     generateSafeFilename "My Lunch Photo!! .PNG" 1700000000000 "a1b2c3d")),
                  ("url", .str ("/uploads/" ++
                     generateSafeFilename "My Lunch Photo!! .PNG" 1700000000000 "a1b2c3d"))]⟩ ∧
    ∃ core : String,
      "/uploads/" ++ generateSafeFilename "My Lunch Photo!! .PNG" 1700000000000 "a1b2c3d" =
        "/uploads/" ++ core ++ "." ++ jsExt "My Lunch Photo!! .PNG" ∧
      core ≠ "" ∧
      core.data.all (fun c => isLowerAlnum c || c == '-') = true :=
  upload_success_contract ⟨"My Lunch Photo!! .PNG", "image/png", [1, 2, 3]⟩
    ⟨true, true, true⟩ 1700000000000 "a1b2c3d" (by decide) (Or.inl rfl) rfl (by decide)

/-- Any request whose `imageUrl` is missing, non-string or blank — with a
non-`null` body — is answered 400 before any outbound call. -/
theorem analyzePOST_blank (body : Json) (env : AnalyzeEnv) (hnull : body ≠ Json.null)
    (hblank : ∀ s, jget body "imageUrl" = some (.str s) → jsTrim s = "") :
    analyzePOST body env =
      (jsonError "imageUrl is required and must be a non-empty string" 400, []) := by
  cases body with
  | null => exact absurd rfl hnull
  | obj fields =>
    cases hj : lookupField fields "imageUrl" with
    | none => simp [analyzePOST, jget, hj]
    | some v =>
      cases v with
      | str s =>
        have hs := hblank s (by simp [jget, hj])
        simp [analyzePOST, jget, hj, hs]
      | null => simp [analyzePOST, jget, hj]
      | bool b => simp [analyzePOST, jget, hj]
      | num n => simp [analyzePOST, jget, hj]
      | arr l => simp [analyzePOST, jget, hj]
      | obj g => simp [analyzePOST, jget, hj]
  | bool b => rfl
  | num n => rfl
  | str s => rfl
  | arr l => rfl

/-- C6 counterexample: the JSON body `null` has no `imageUrl` field, yet the
handler answers 500 (the destructuring failure lands in the catch-all), not
400; no fetch and no model invocation happen. -/
theorem analyze_null_body_counterexample :
    jget Json.null "imageUrl" = none ∧
    (analyzePOST Json.null ⟨some "key", FetchOutcome.netError "x", ""⟩).1.status = 500 ∧
    (analyzePOST Json.null ⟨some "key", FetchOutcome.netError "x", ""⟩).1.status ≠ 400 ∧
    (analyzePOST Json.null ⟨some "key", FetchOutcome.netError "x", ""⟩).2 = [] :=
  ⟨rfl, rfl, by decide, rfl⟩

/-- C6 (amended): for every request body other than JSON `null` whose
`imageUrl` field is missing, not a string, or a string that is blank after
trimming, the handler answers 400 with an error mentioning "required",
without fetching anything or invoking the model (a `null` body instead hits
the catch-all and is answered 500). -/
theorem analyze_blank_imageUrl_400 :
    ∀ (body : Json) (env : AnalyzeEnv), body ≠ Json.null →
      (∀ s, jget body "imageUrl" = some (.str s) → jsTrim s = "") →
      analyzePOST body env =
        (jsonError "imageUrl is required and must be a non-empty string" 400, []) ∧
      ∃ pre post, "imageUrl is required and must be a non-empty string" =
        pre ++ "required" ++ post := by
  intro body env hnull hblank
  exact ⟨analyzePOST_blank body env hnull hblank,
    "imageUrl is ", " and must be a non-empty string", by decide⟩

/-- Closed witness for C6's amended theorem at a body with no `imageUrl`. -/
theorem analyze_blank_imageUrl_400_witness :
    analyzePOST (.obj [("foo", .num 1)]) ⟨none, FetchOutcome.netError "x", ""⟩ =
      (jsonError "imageUrl is required and must be a non-empty string" 400, []) ∧
    ∃ pre post, "imageUrl is required and must be a non-empty string" =
      pre ++ "required" ++ post :=
  analyze_blank_imageUrl_400 (.obj [("foo", .num 1)]) ⟨none, FetchOutcome.netError "x", ""⟩
    (by simp) (by intro s hs; simp [jget, lookupField] at hs)

/-- C7: for every request with a valid non-blank string `imageUrl`, an
absent `GEMINI_API_KEY` yields a 500 naming the variable, with no outbound
call; and the credential check comes after the `imageUrl` validation (an
invalid `imageUrl` still yields 400 even when the key is absent) and before
the image fetch (the event list is empty). -/
theorem analyze_missing_key_500 :
    (∀ (body : Json) (env : AnalyzeEnv) (s : String),
      jget body "imageUrl" = some (.str s) → jsTrim s ≠ "" → env.apiKey = none →
      analyzePOST body env =
        (jsonError "GEMINI_API_KEY environment variable is not set" 500, [])) ∧
    (∀ (body : Json) (env : AnalyzeEnv), body ≠ Json.null → env.apiKey = none →
      (∀ s, jget body "imageUrl" = some (.str s) → jsTrim s = "") →
      (analyzePOST body env).1.status = 400) := by
  constructor
  · intro body env s hj ht hk
    cases body with
    | obj fields =>
      simp only [jget] at hj
      simp [analyzePOST, jget, hj, ht, keyTruthy, hk]
    | null => simp [jget] at hj
    | bool b => simp [jget] at hj
    | num n => simp [jget] at hj
    | str t => simp [jget] at hj
    | arr l => simp [jget] at hj
  · intro body env hnull hk hblank
    rw [analyzePOST_blank body env hnull hblank]
    rfl

/-- Closed witness for C7 at a concrete valid URL with the key unset. -/
theorem analyze_missing_key_500_witness :
    analyzePOST (.obj [("imageUrl", .str "/uploads/a.png")])
        ⟨none, FetchOutcome.netError "x", ""⟩ =
      (jsonError "GEMINI_API_KEY environment variable is not set" 500, []) :=
  analyze_missing_key_500.1 (.obj [("imageUrl", .str "/uploads/a.png")])
    ⟨none, FetchOutcome.netError "x", ""⟩ "/uploads/a.png" rfl (by decide) rfl

theorem jsEndsWith_excl (s : String) (c₁ c₂ : Char) (p₁ p₂ : List Char)
    (hne : (c₂ == c₁) = false)
    (h : List.isPrefixOf (c₁ :: p₁) s.data.reverse = true) :
    List.isPrefixOf (c₂ :: p₂) s.data.reverse = false := by
  cases hr : s.data.reverse with
  | nil => rw [hr] at h; simp [List.isPrefixOf] at h
  | cons c rest =>
    rw [hr] at h
    simp only [List.isPrefixOf, Bool.and_eq_true] at h
    have hc : c₁ = c := eq_of_beq h.1
    subst hc
    simp only [List.isPrefixOf, Bool.and_eq_false_iff]
    exact Or.inl (by simp [hne])

theorem not_png_of_webp (t : String) (h : jsEndsWith t ".webp" = true) :
    jsEndsWith t ".png" = false :=
  jsEndsWith_excl t 'p' 'g' ['b', 'e', 'w', '.'] ['n', 'p', '.'] (by decide) h

theorem not_png_of_gif (t : String) (h : jsEndsWith t ".gif" = true) :
    jsEndsWith t ".png" = false :=
  jsEndsWith_excl t 'f' 'g' ['i', 'g', '.'] ['n', 'p', '.'] (by decide) h

theorem not_webp_of_gif (t : String) (h : jsEndsWith t ".gif" = true) :
    jsEndsWith t ".webp" = false :=
  jsEndsWith_excl t 'f' 'p' ['i', 'g', '.'] ['b', 'e', 'w', '.'] (by decide) h

/-- C8: the MIME type sent with the outbound model request is determined
solely by the URL's ending, case-insensitively (`.png`, `.webp`, `.gif`,
else `image/jpeg`); in the handler the invocation event carries exactly
`mimeTypeOf` of the request URL, for every fetch outcome — the fetched
bytes, status text and headers never influence the choice. -/
theorem mime_from_url_extension_only :
    (∀ url : String, jsEndsWith (jsToLower url) ".png" = true →
      mimeTypeOf url = "image/png") ∧
    (∀ url : String, jsEndsWith (jsToLower url) ".webp" = true →
      mimeTypeOf url = "image/webp") ∧
    (∀ url : String, jsEndsWith (jsToLower url) ".gif" = true →
      mimeTypeOf url = "image/gif") ∧
    (∀ url : String, jsEndsWith (jsToLower url) ".png" = false →
      jsEndsWith (jsToLower url) ".webp" = false →
      jsEndsWith (jsToLower url) ".gif" = false →
      mimeTypeOf url = "image/jpeg") ∧
    (∀ (body : Json) (env : AnalyzeEnv) (s : String) (st : Nat) (stx : String)
        (bytes : List Nat),
      jget body "imageUrl" = some (.str s) → jsTrim s ≠ "" →
      keyTruthy env.apiKey = true →
      env.fetchResult = FetchOutcome.response true st stx bytes →
      (analyzePOST body env).2 =
        [AnaEvent.fetchEvt s, AnaEvent.invokeEvt (mimeTypeOf s) bytes]) := by
  refine ⟨?_, ?_, ?_, ?_, ?_⟩
  · intro url h
    simp [mimeTypeOf, h]
  · intro url h
    simp [mimeTypeOf, not_png_of_webp _ h, h]
  · intro url h
    simp [mimeTypeOf, not_png_of_gif _ h, not_webp_of_gif _ h, h]
  · intro url h1 h2 h3
    simp [mimeTypeOf, h1, h2, h3]
  · intro body env s st stx bytes hj ht hk hf
    cases body with
    | obj fields =>
      simp only [jget] at hj
      simp [analyzePOST, jget, hj, ht, hk, hf]
    | null => simp [jget] at hj
    | bool b => simp [jget] at hj
    | num n => simp [jget] at hj
    | str t => simp [jget] at hj
    | arr l => simp [jget] at hj

/-- Closed witness for C8 at a concrete uppercase-PNG URL. -/
theorem mime_from_url_extension_only_witness :
    mimeTypeOf "/uploads/a.PNG" = "image/png" ∧
    (analyzePOST (.obj [("imageUrl", .str "/uploads/a.PNG")])
        ⟨some "key", FetchOutcome.response true 200 "OK" [9, 9], "nonsense"⟩).2 =
      [AnaEvent.fetchEvt "/uploads/a.PNG",
       AnaEvent.invokeEvt (mimeTypeOf "/uploads/a.PNG") [9, 9]] :=
  ⟨mime_from_url_extension_only.1 "/uploads/a.PNG" (by decide),
   mime_from_url_extension_only.2.2.2.2 (.obj [("imageUrl", .str "/uploads/a.PNG")])
     ⟨some "key", FetchOutcome.response true 200 "OK" [9, 9], "nonsense"⟩
     "/uploads/a.PNG" 200 "OK" [9, 9] rfl (by decide) rfl rfl⟩

end CalorieCounter
